import Mathlib

/-!
Verification development for the dw-inventory-sae ETL pipeline.

The Python source (utils.py, wms_client.py, db.py, extractors/*.py) is shallowly
embedded below: Python/JSON values become the inductive type `PyVal`, dicts become
association lists with insertion-order semantics, the pure dataflow of each
extractor becomes a Lean function, and the HTTP client is modelled against an
explicit trace of responses.  The asyncio detail fan-out is modelled as a
nondeterministic labelled transition system over task slots.
-/

set_option maxHeartbeats 1000000
set_option maxRecDepth 16000

/-- A parsed Python `datetime.datetime` value (the result of a successful
`datetime.fromisoformat` / `strptime` call): calendar date, time of day,
microseconds, and an optional UTC-offset in minutes. -/
structure PyDatetime where
  year : Nat
  month : Nat
  day : Nat
  hour : Nat
  minute : Nat
  second : Nat
  micro : Nat
  offMinutes : Option Int
deriving DecidableEq, Repr

/-- A parsed Python `datetime.date` value (what `datetime.date()` returns). -/
structure PyDate where
  year : Nat
  month : Nat
  day : Nat
deriving DecidableEq, Repr

/-- `PyDatetime.date` models Python's `datetime.date()` truncation. -/
def PyDatetime.dateOf (t : PyDatetime) : PyDate :=
  ⟨t.year, t.month, t.day⟩

/-- The Python value domain manipulated by the extractors: JSON scalars and
containers, plus the datetime/date objects the coercion helpers produce.
Floats are modelled as rationals (no claim depends on IEEE rounding). -/
inductive PyVal where
  | none
  | bool (b : Bool)
  | int (n : Int)
  | float (q : Rat)
  | str (s : String)
  | dict (fields : List (String × PyVal))
  | list (elems : List PyVal)
  | dt (t : PyDatetime)
  | date (d : PyDate)

/-- A Python dict, in insertion order (keys unique in well-formed inputs). -/
abbrev Row := List (String × PyVal)

/-- `k in d` for a Python dict. -/
def dcontains (d : Row) (k : String) : Bool :=
  d.any (fun p => p.fst = k)

/-- First binding of `k` in `d`, if any. -/
def dfind (d : Row) (k : String) : Option PyVal :=
  (d.find? (fun p => p.fst = k)).map Prod.snd

/-- `d.get(k)` on a Python dict: the value, or `None` when absent. -/
def dget (d : Row) (k : String) : PyVal :=
  (dfind d k).getD PyVal.none

/-- `d.get(k, default)` on a Python dict. -/
def dgetD (d : Row) (k : String) (default : PyVal) : PyVal :=
  (dfind d k).getD default

/-- `d[k] = v` on a Python dict: update in place when the key exists
(keeping its position), else append (insertion order). -/
def dset (d : Row) (k : String) (v : PyVal) : Row :=
  if dcontains d k then d.map (fun p => if p.fst = k then (k, v) else p)
  else d ++ [(k, v)]

/-- `d.pop(k, None)` on a Python dict: remove the key if present. -/
def dpop (d : Row) (k : String) : Row :=
  d.filter (fun p => ¬ p.fst = k)

/-- Python truthiness, `bool(v)`. -/
def truthy : PyVal → Bool
  | .none => false
  | .bool b => b
  | .int n => decide (n ≠ 0)
  | .float q => decide (q ≠ 0)
  | .str s => decide (s ≠ "")
  | .dict d => !d.isEmpty
  | .list l => !l.isEmpty
  | .dt _ => true
  | .date _ => true

/-- `isinstance(v, dict) and v` — a non-empty dict. -/
def isNonemptyDict : PyVal → Bool
  | .dict d => !d.isEmpty
  | _ => false

/-- One entry of `flatten_one_level`'s loop over `d.items()`: a non-dict value
is copied through; a dict value is collapsed into `k_id`/`k_key`/`k_url`
(for the sub-keys present) followed by `k_subk` for every other sub-key
(utils.py, lines 13-27). -/
def flattenEntry (out : Row) (k : String) (v : PyVal) : Row :=
  match v with
  | .dict sub =>
    let out := if dcontains sub "id" then dset out (k ++ "_id") (dget sub "id") else out
    let out := if dcontains sub "key" then dset out (k ++ "_key") (dget sub "key") else out
    let out := if dcontains sub "url" then dset out (k ++ "_url") (dget sub "url") else out
    sub.foldl (fun out p =>
      if p.fst = "id" ∨ p.fst = "key" ∨ p.fst = "url" then out
      else dset out (k ++ "_" ++ p.fst) p.snd) out
  | _ => dset out k v

/-- `utils.flatten_one_level`: collapse immediate nested dicts into fields with
`_id`/`_key`/`_url` (and `_subkey`) suffixes, keeping scalars as they are. -/
def flatten_one_level (d : Row) : Row :=
  d.foldl (fun out p => flattenEntry out p.fst p.snd) []

/-- `utils.batched`: yield chunks of up to `n` elements; an empty chunk
(exhausted input, or `n = 0`) stops the generator. -/
def batched (n : Nat) (l : List α) : List (List α) :=
  if (l.take n).isEmpty then [] else l.take n :: batched n (l.drop n)
termination_by l.length
decreasing_by
  rename_i h
  have h' : ¬ (l.take n = []) := by simpa [List.isEmpty_iff] using h
  have hlen : 0 < (l.take n).length := List.length_pos.mpr h'
  rw [List.length_take] at hlen
  rw [List.length_drop]
  omega

theorem batched_nil (n : Nat) : batched n ([] : List α) = [] := by
  rw [batched.eq_def]; simp

theorem batched_zero (l : List α) : batched 0 l = [] := by
  rw [batched.eq_def]; simp

theorem batched_cons (n : Nat) (l : List α) (hn : n ≠ 0) (hl : l ≠ []) :
    batched n l = l.take n :: batched n (l.drop n) := by
  rw [batched.eq_def]
  have h' : (l.take n).isEmpty = false := by
    simp [List.isEmpty_iff, List.take_eq_nil_iff, hn, hl]
  simp [h']

/-- The chunks produced by `batched` concatenate back to the input. -/
theorem batched_flatten (n : Nat) (hn : 0 < n) (l : List α) :
    (batched n l).flatten = l := by
  by_cases hl : l = []
  · subst hl; rw [batched_nil]; rfl
  · rw [batched_cons n l (Nat.pos_iff_ne_zero.mp hn) hl]
    rw [List.flatten_cons, batched_flatten n hn (l.drop n), List.take_append_drop]
termination_by l.length
decreasing_by
  rw [List.length_drop]
  have h1 : l.length ≠ 0 := fun h => hl (List.eq_nil_of_length_eq_zero h)
  have h2 : n ≠ 0 := Nat.pos_iff_ne_zero.mp hn
  omega

/-- Every chunk produced by `batched` is non-empty and has at most `n` elements. -/
theorem batched_mem_length (n : Nat) (l : List α) (c : List α)
    (hc : c ∈ batched n l) : c ≠ [] ∧ c.length ≤ n := by
  by_cases hl : l = []
  · subst hl; rw [batched_nil] at hc; cases hc
  · by_cases hn : n = 0
    · subst hn; rw [batched_zero] at hc; cases hc
    · rw [batched_cons n l hn hl] at hc
      cases hc with
      | head =>
        constructor
        · simp [List.take_eq_nil_iff, hn, hl]
        · rw [List.length_take]; omega
      | tail _ h => exact batched_mem_length n (l.drop n) c h
termination_by l.length
decreasing_by
  rw [List.length_drop]
  have h1 : l.length ≠ 0 := fun h => hl (List.eq_nil_of_length_eq_zero h)
  omega

/-- Every chunk except possibly the last has exactly `n` elements. -/
theorem batched_dropLast_length (n : Nat) (l : List α) (c : List α)
    (hc : c ∈ (batched n l).dropLast) : c.length = n := by
  by_cases hl : l = []
  · subst hl; rw [batched_nil] at hc; cases hc
  · by_cases hn : n = 0
    · subst hn; rw [batched_zero] at hc; cases hc
    · rw [batched_cons n l hn hl] at hc
      by_cases hrest : batched n (l.drop n) = []
      · rw [hrest] at hc; cases hc
      · rw [List.dropLast_cons_of_ne_nil hrest] at hc
        cases hc with
        | head =>
          -- the tail is non-empty, so `l.drop n ≠ []`, hence `n < l.length`
          have hdrop : l.drop n ≠ [] := by
            intro h; rw [h, batched_nil] at hrest; exact hrest rfl
          have hlen : n < l.length := by
            by_contra hle
            push_neg at hle
            exact hdrop (List.drop_eq_nil_of_le hle)
          rw [List.length_take]; omega
        | tail _ h => exact batched_dropLast_length n (l.drop n) c h
termination_by l.length
decreasing_by
  rw [List.length_drop]
  have h1 : l.length ≠ 0 := fun h => hl (List.eq_nil_of_length_eq_zero h)
  omega

theorem foldl_add_length (L : List (List α)) (k : Nat) :
    L.foldl (fun t c => t + c.length) k = k + (L.map List.length).sum := by
  induction L generalizing k with
  | nil => simp
  | cons c cs ih => simp [ih, Nat.add_assoc]

/-- Summing chunk lengths over `batched` recovers the input length. -/
theorem batched_foldl_length (n : Nat) (hn : 0 < n) (l : List α) (k : Nat) :
    (batched n l).foldl (fun t c => t + c.length) k = k + l.length := by
  have hlen : ((batched n l).map List.length).sum = l.length := by
    rw [← List.length_flatten, batched_flatten n hn l]
  rw [foldl_add_length, hlen]

/-! ### Numeric and datetime parsing (models of `int(str)`, `float(str)`, `datetime.fromisoformat`) -/

def digitsVal (cs : List Char) : Nat :=
  cs.foldl (fun a c => a * 10 + (c.toNat - 48)) 0

/-- Python `int(s)` on a string: optional sign followed by decimal digits.
(CPython also strips whitespace and allows `_` separators; no claim
exercises those and they are not modelled.) -/
def parseIntStr (s : String) : Option Int :=
  let go : List Char → Option Nat := fun cs =>
    if cs ≠ [] ∧ cs.all Char.isDigit then some (digitsVal cs) else Option.none
  match s.toList with
  | '-' :: r => (go r).map (fun n => -(n : Int))
  | '+' :: r => (go r).map (fun n => (n : Int))
  | r => (go r).map (fun n => (n : Int))

/-- Mantissa of a float literal: `digits[.digits]` with at least one digit. -/
def parseMantissa (cs : List Char) : Option Rat :=
  match cs.splitOn '.' with
  | [ip] => if ip ≠ [] ∧ ip.all Char.isDigit then some ((digitsVal ip : Int) : Rat) else Option.none
  | [ip, fp] =>
    if (ip ≠ [] ∨ fp ≠ []) ∧ ip.all Char.isDigit ∧ fp.all Char.isDigit then
      some ((digitsVal ip : Rat) + (digitsVal fp : Rat) / ((10 : Rat) ^ fp.length))
    else Option.none
  | _ => Option.none

/-- Python `float(s)` on a string: optional sign, mantissa, optional exponent.
(`inf`/`nan`/whitespace/`_` are not modelled; no claim exercises them.) -/
def parseFloatStr (s : String) : Option Rat :=
  let signed : List Char → Option Rat := fun cs =>
    let expSplit := cs.splitOnP (fun c => c = 'e' ∨ c = 'E')
    match expSplit with
    | [m] => parseMantissa m
    | [m, e] =>
      let expVal : List Char → Option Int := fun ecs =>
        match ecs with
        | '-' :: r => if r ≠ [] ∧ r.all Char.isDigit then some (-(digitsVal r : Int)) else Option.none
        | '+' :: r => if r ≠ [] ∧ r.all Char.isDigit then some ((digitsVal r : Int)) else Option.none
        | r => if r ≠ [] ∧ r.all Char.isDigit then some ((digitsVal r : Int)) else Option.none
      match parseMantissa m, expVal e with
      | some q, some x => some (q * (10 : Rat) ^ x)
      | _, _ => Option.none
    | _ => Option.none
  match s.toList with
  | '-' :: r => (signed r).map (fun q => -q)
  | '+' :: r => signed r
  | r => signed r

/-- Two decimal digits. -/
def digit2 : List Char → Option (Nat × List Char)
  | a :: b :: r =>
    if a.isDigit ∧ b.isDigit then some ((a.toNat - 48) * 10 + (b.toNat - 48), r)
    else Option.none
  | _ => Option.none

/-- Four decimal digits. -/
def digit4 : List Char → Option (Nat × List Char)
  | a :: b :: c :: d :: r =>
    if a.isDigit ∧ b.isDigit ∧ c.isDigit ∧ d.isDigit then
      some (digitsVal [a, b, c, d], r)
    else Option.none
  | _ => Option.none

/-- Fractional-seconds suffix: absent, or `.` followed by exactly 3 or 6 digits
(the strict `fromisoformat` grammar of the CPython versions this code targets). -/
def parseFrac : List Char → Option (Nat × List Char)
  | '.' :: r =>
    let ds := r.takeWhile Char.isDigit
    if ds.length = 3 ∨ ds.length = 6 then some (digitsVal ds, r.dropWhile Char.isDigit)
    else Option.none
  | r => some (0, r)

/-- Optional `±HH:MM` UTC-offset suffix, which must end the string. -/
def parseOffset : List Char → Option (Option Int)
  | [] => some Option.none
  | c :: r =>
    if c = '+' ∨ c = '-' then
      match digit2 r with
      | some (hh, ':' :: r2) =>
        match digit2 r2 with
        | some (mm, []) =>
          let m : Int := (hh * 60 + mm : Nat)
          some (some (if c = '-' then -m else m))
        | _ => Option.none
      | _ => Option.none
    else Option.none

/-- Optional `:SS[.frac]` seconds suffix. -/
def parseSeconds : List Char → Option (Nat × Nat × List Char)
  | ':' :: r =>
    match digit2 r with
    | some (ss, r2) =>
      match parseFrac r2 with
      | some (f, r3) => some (ss, f, r3)
      | _ => Option.none
    | _ => Option.none
  | r => some (0, 0, r)

/-- `datetime.fromisoformat`: `YYYY-MM-DD[<sep>HH:MM[:SS[.fff[fff]]][±HH:MM]]`.
Field ranges are validated (days only up to 31 — per-month lengths are not
modelled; no claim exercises them). -/
def fromisoformat (s : String) : Option PyDatetime :=
  match digit4 s.toList with
  | some (y, '-' :: r1) =>
    match digit2 r1 with
    | some (mo, '-' :: r2) =>
      match digit2 r2 with
      | some (d, rest) =>
        if 1 ≤ mo ∧ mo ≤ 12 ∧ 1 ≤ d ∧ d ≤ 31 then
          match rest with
          | [] => some ⟨y, mo, d, 0, 0, 0, 0, Option.none⟩
          | sep :: r3 =>
            if sep = 'T' ∨ sep = ' ' then
              match digit2 r3 with
              | some (hh, ':' :: r4) =>
                match digit2 r4 with
                | some (mi, r5) =>
                  match parseSeconds r5 with
                  | some (ss, f, r6) =>
                    match parseOffset r6 with
                    | some off =>
                      if hh ≤ 23 ∧ mi ≤ 59 ∧ ss ≤ 59 then
                        some ⟨y, mo, d, hh, mi, ss, f, off⟩
                      else Option.none
                    | _ => Option.none
                  | _ => Option.none
                | _ => Option.none
              | _ => Option.none
            else Option.none
        else Option.none
      | _ => Option.none
    | _ => Option.none
  | _ => Option.none

/-! ### Type-coercion helpers of the extractors -/

/-- `v in (None, "", "null")` — the sentinel test of `_safe_float`/`_safe_int`
in extractors/location.py, container.py and oblpn.py. -/
def isNullSentinel : PyVal → Bool
  | .none => true
  | .str s => decide (s = "" ∨ s = "null")
  | _ => false

/-- `v is None or v == ""` — the sentinel test of `_safe_int` in
extractors/inventory.py. -/
def isNoneOrEmptyStr : PyVal → Bool
  | .none => true
  | .str s => decide (s = "")
  | _ => false

/-- Python `float(v)`: numeric conversion; anything non-numeric-non-string
raises (modelled as failure). -/
def pyFloat : PyVal → Option Rat
  | .bool b => some (if b then 1 else 0)
  | .int n => some (n : Rat)
  | .float q => some q
  | .str s => parseFloatStr s
  | _ => Option.none

/-- Truncation toward zero, as Python `int(float)`. -/
def ratTrunc (q : Rat) : Int :=
  if 0 ≤ q then ⌊q⌋ else -⌊-q⌋

/-- Python `int(v)`: strict conversion; float truncates toward zero, strings
must be integer literals, anything else raises (modelled as failure). -/
def pyInt : PyVal → Option Int
  | .bool b => some (if b then 1 else 0)
  | .int n => some n
  | .float q => some (ratTrunc q)
  | .str s => parseIntStr s
  | _ => Option.none

/-- `_safe_float` from extractors/location.py (lines 14-20) and
extractors/container.py (lines 15-21): sentinel or unparseable → `None`. -/
def loc_safe_float (v : PyVal) : PyVal :=
  if isNullSentinel v then PyVal.none
  else match pyFloat v with
    | some q => .float q
    | _ => PyVal.none

/-- `_safe_int` from extractors/location.py (lines 23-29) and
extractors/container.py (lines 24-30): sentinel or unparseable → `None`. -/
def loc_safe_int (v : PyVal) : PyVal :=
  if isNullSentinel v then PyVal.none
  else match pyInt v with
    | some n => .int n
    | _ => PyVal.none

/-- `_safe_float` from extractors/inventory.py (lines 18-24): `None` and
conversion failures both coerce to `0.0`, never to null. -/
def inv_safe_float (v : PyVal) : PyVal :=
  match v with
  | .none => .float 0
  | _ => match pyFloat v with
    | some q => .float q
    | _ => .float 0

/-- `_safe_int` from extractors/inventory.py (lines 27-33). -/
def inv_safe_int (v : PyVal) : PyVal :=
  if isNoneOrEmptyStr v then PyVal.none
  else match pyInt v with
    | some n => .int n
    | _ => PyVal.none

/-- `str.lower()`, modelled over the character list (the ASCII case map,
which agrees with CPython on the ASCII truthy tokens involved). -/
def pyLower (s : String) : String :=
  String.mk (s.data.map Char.toLower)

/-- `_safe_bool`, defined identically in extractors/location.py (lines 32-39)
and extractors/container.py (lines 33-40): `None` stays `None`; native bools
pass through; strings test membership of their lower-case form in
`("true", "t", "1", "yes", "y")`; anything else gets `bool(v)` truthiness. -/
def safe_bool (v : PyVal) : PyVal :=
  match v with
  | .none => PyVal.none
  | .bool b => .bool b
  | .str s =>
    .bool (decide (pyLower s = "true" ∨ pyLower s = "t" ∨ pyLower s = "1" ∨
      pyLower s = "yes" ∨ pyLower s = "y"))
  | _ => .bool (truthy v)

/-- `_parse_datetime` from extractors/location.py (lines 42-50) and
extractors/container.py (lines 43-51): falsy → `None`; strings are ISO-parsed
after replacing `Z` with `+00:00` (failure → `None`); any other truthy value
falls through to `None`. -/
def loc_parse_datetime (v : PyVal) : PyVal :=
  if truthy v = false then PyVal.none
  else match v with
    | .str s =>
      match fromisoformat (s.replace "Z" "+00:00") with
      | some t => .dt t
      | _ => PyVal.none
    | _ => PyVal.none

/-- `_parse_iso_date` from extractors/inventory.py (lines 36-47): same total
behaviour as `_parse_datetime` (its `strptime("%Y-%m-%dT%H:%M:%S")` fallback
accepts only strings `fromisoformat` already accepts, and every non-string
path ends in `None` via the exception handlers). -/
def inv_parse_iso_date (v : PyVal) : PyVal :=
  if truthy v = false then PyVal.none
  else match v with
    | .str s =>
      match fromisoformat (s.replace "Z" "+00:00") with
      | some t => .dt t
      | _ => PyVal.none
    | _ => PyVal.none

/-! ### Per-entity flatteners -/

/-- `for f in fields: if f in flat: flat[f] = coerce(flat.get(f))` —
the coercion loops shared by all `_flatten_*_record` functions. -/
def applyFields (coerce : PyVal → PyVal) (flat : Row) (fields : List String) : Row :=
  fields.foldl
    (fun flat f => if dcontains flat f then dset flat f (coerce (dget flat f)) else flat)
    flat

def location_float_fields : List String :=
  ["length", "width", "height", "max_units", "min_units", "max_volume",
   "min_volume", "min_weight", "max_weight", "cc_threshold_value",
   "x_coordinate", "y_coordinate", "z_coordinate", "in_transit_units"]

def location_int_fields : List String :=
  ["id", "facility_id_id", "dedicated_company_id_id", "type_id_id", "max_lpns",
   "lock_code_id", "replenishment_zone_id_id", "item_assignment_type_id_id",
   "item_id_id", "mhe_system_id", "task_zone_id", "cc_threshold_uom_id_id"]

def location_bool_fields : List String :=
  ["allow_multi_sku", "to_be_counted_flg", "lock_for_putaway_flg",
   "allow_reserve_partial_pick_flg", "restrict_batch_nbr_flg",
   "restrict_invn_attr_flg", "assembly_flg"]

def location_ts_fields : List String :=
  ["create_ts", "mod_ts", "to_be_counted_ts", "last_count_ts", "lock_applied_ts"]

def location_nested_fields : List String :=
  ["facility_id", "dedicated_company_id", "type_id", "destination_company_id",
   "replenishment_zone_id", "item_assignment_type_id", "item_id",
   "cc_threshold_uom_id"]

/-- The trailing nested-dict fixup loop of `_flatten_location_record` and
`_flatten_container_record` (`if nf in flat and isinstance(flat[nf], dict)`):
set `nf_key`/`nf_url` from the dict and pop `nf`.  Dead in practice, because
`flatten_one_level` never leaves a dict value behind. -/
def nestedFix (flat : Row) (nf : String) : Row :=
  match dfind flat nf with
  | some (.dict v) =>
    dpop (dset (dset flat (nf ++ "_key") (dget v "key")) (nf ++ "_url") (dget v "url")) nf
  | _ => flat

/-- `_flatten_location_record` (extractors/location.py, lines 53-135). -/
def _flatten_location_record (location : Row) : Row :=
  let flat := flatten_one_level location
  let flat := applyFields loc_safe_float flat location_float_fields
  let flat := applyFields loc_safe_int flat location_int_fields
  let flat := applyFields safe_bool flat location_bool_fields
  let flat := applyFields loc_parse_datetime flat location_ts_fields
  location_nested_fields.foldl nestedFix flat

def container_float_fields : List String :=
  ["weight", "volume", "length", "width", "height"]

def container_int_fields : List String :=
  ["id", "facility_id_id", "company_id_id", "status_id", "vas_status_id",
   "curr_location_id_id", "prev_location_id_id", "pallet_id",
   "rcvd_shipment_id_id", "putawaytype_id_id", "lpn_type_id", "cart_posn_nbr",
   "audit_status_id", "qc_status_id", "asset_id", "nbr_files"]

def container_bool_fields : List String :=
  ["parcel_batch_flg", "price_labels_printed", "actual_weight_flg"]

def container_ts_fields : List String :=
  ["create_ts", "mod_ts", "rcvd_ts", "first_putaway_ts", "priority_date"]

def container_nested_fields : List String :=
  ["facility_id", "company_id", "curr_location_id", "prev_location_id",
   "rcvd_shipment_id", "putawaytype_id"]

/-- `_flatten_container_record` (extractors/container.py, lines 54-111). -/
def _flatten_container_record (container : Row) : Row :=
  let flat := flatten_one_level container
  let flat := applyFields loc_safe_float flat container_float_fields
  let flat := applyFields loc_safe_int flat container_int_fields
  let flat := applyFields safe_bool flat container_bool_fields
  let flat := applyFields loc_parse_datetime flat container_ts_fields
  container_nested_fields.foldl nestedFix flat

def inventory_int_fields : List String :=
  ["id", "facility_id_id", "item_id_id", "location_id_id", "container_id_id",
   "status_id", "batch_number_id", "invn_attr_id_id", "uom_id_id"]

def inventory_date_fields : List String :=
  ["priority_date", "manufacture_date", "expiry_date"]

def inventory_nested_fields : List String :=
  ["facility_id", "item_id", "location_id", "container_id", "invn_attr_id",
   "uom_id"]

/-- `_flatten_inventory_record` (extractors/inventory.py, lines 50-103).
Note two quirks of the source kept here: date-only fields are re-parsed only
when the current value is a string, and the final backward-compatibility loop
re-reads the ORIGINAL record's nested dicts, overwriting the coerced
`*_id` values with the raw nested ones. -/
def _flatten_inventory_record (inv : Row) : Row :=
  let flat := flatten_one_level inv
  let flat := applyFields inv_safe_float flat ["curr_qty", "orig_qty", "pack_qty", "case_qty"]
  let flat := applyFields inv_safe_int flat inventory_int_fields
  let flat := inventory_date_fields.foldl
    (fun flat ds =>
      if dcontains flat ds then
        match dget flat ds with
        | .str s =>
          dset flat ds
            (match fromisoformat (s.replace "Z" "+00:00") with
             | some t => .date t.dateOf
             | _ => PyVal.none)
        | _ => flat
      else flat)
    flat
  let flat := applyFields inv_parse_iso_date flat ["create_ts", "mod_ts"]
  inventory_nested_fields.foldl
    (fun flat n =>
      match dfind inv n with
      | some (.dict v) =>
        let flat := if dcontains v "id" then dset flat (n ++ "_id") (dget v "id") else flat
        let flat := if dcontains v "key" then dset flat (n ++ "_key") (dget v "key") else flat
        if dcontains v "url" then dset flat (n ++ "_url") (dget v "url") else flat
      | _ => flat)
    flat

/-! ### The API client against an explicit response trace -/

/-- An exception escaping one HTTP call: `raise_for_status` on an error
status code, or a transport failure (timeout, connection error). -/
inductive HttpErr where
  | status (code : Nat)
  | timeout
deriving DecidableEq, Repr

/-- One GET's outcome as seen by the caller: an exception, or a JSON body. -/
abbrev HttpResp := Except HttpErr PyVal

/-- `data.get("results", []) or data.get("result", []) or []` on a response
body (wms_client.py, line 93); fails (AttributeError) when the body is not a
dict. -/
def resultsVal (data : PyVal) : Option PyVal :=
  match data with
  | .dict d =>
    let r1 := dgetD d "results" (.list [])
    if truthy r1 then some r1
    else
      let r2 := dgetD d "result" (.list [])
      if truthy r2 then some r2 else some (.list [])
  | _ => Option.none

/-- `WMSClient.fetch_all_sync` (wms_client.py, lines 77-100), run against an
explicit trace of successive GET responses (for page 1, page 2, ...).  Each
loop iteration issues exactly one GET — there is no retry of any kind — and
either raises the response's exception, stops on an empty/short page, or
advances to the next page.  Returns `some (outcome, requestsMade)` when the
loop settles within the trace; `Option.none` when the loop would issue a
request beyond the given trace or the body has a shape the code would crash
on (non-dict body, truthy non-list results). -/
def fetch_all_sync (page_size : Nat) :
    List HttpResp → List PyVal → Nat → Option (Except HttpErr (List PyVal) × Nat)
  | [], _, _ => Option.none
  | resp :: rest, items, reqs =>
    match resp with
    | .error e => some (.error e, reqs + 1)
    | .ok data =>
      match resultsVal data with
      | Option.none => Option.none
      | some rv =>
        if truthy rv = false then some (.ok items, reqs + 1)
        else match rv with
          | .list results =>
            if results.length < page_size then some (.ok (items ++ results), reqs + 1)
            else fetch_all_sync page_size rest (items ++ results) (reqs + 1)
          | _ => Option.none

/-- `WMSClient.fetch_one_detail` (wms_client.py, lines 139-150) on one GET's
outcome: the exception propagates unretried, a dict body yields
`data.get("result", data)` (a non-dict body would crash on `.get`). -/
def fetch_one_detail (resp : HttpResp) : Option (Except HttpErr PyVal) :=
  match resp with
  | .error e => some (.error e)
  | .ok (.dict d) => some (.ok (dgetD d "result" (.dict d)))
  | .ok _ => Option.none

/-- A page body of the shape the WMS API returns, `{"results": [...]}`. -/
def mkPage (p : List PyVal) : PyVal :=
  .dict [("results", .list p)]

/-- The pages the pagination loop actually consumes: every page up to and
including the first empty page or first page shorter than `page_size`. -/
def fetchedPrefix (page_size : Nat) : List (List PyVal) → List (List PyVal)
  | [] => []
  | p :: ps =>
    if p.isEmpty ∨ p.length < page_size then [p] else p :: fetchedPrefix page_size ps

/-! ### The Sink (db.py) -/

/-- The row count `db.upsert_location` returns (db.py, lines 754-756 and 983):
zero for an empty batch, else `len(items)`. -/
def upsert_location_count (rows : List Row) : Nat :=
  if rows.isEmpty then 0 else rows.length

/-- The row count `db.upsert_container` returns (db.py, lines 141-143, 263). -/
def upsert_container_count (rows : List Row) : Nat :=
  if rows.isEmpty then 0 else rows.length

/-- The row count `db.upsert_inventory` returns (db.py, lines 64-66, 137). -/
def upsert_inventory_count (rows : List Row) : Nat :=
  if rows.isEmpty then 0 else rows.length

/-- `True` exactly for Python `None`. -/
def isPyNone : PyVal → Bool
  | .none => true
  | _ => false

/-- `item.get(k) if item.get(k) else None` — the truthiness guard used for
many location columns in db.py. -/
def getTruthy (item : Row) (k : String) : PyVal :=
  if truthy (dget item k) then dget item k else PyVal.none

/-- `item.get(k) if item.get(k) is not None else None` — the is-not-None guard
used for the location flag columns in db.py (the identity on `.get`'s result,
kept for fidelity with the source). -/
def getNotNone (item : Row) (k : String) : PyVal :=
  if isPyNone (dget item k) then PyVal.none else dget item k

/-- The parameter row `db.upsert_location` binds for one item (db.py, lines
816-978), pairing each destination column with the value looked up from the
flattened row.  Note that every nested-reference column reads a DOTTED key
(`item.get("type_id.id")` and so on). -/
def upsert_location_params (item : Row) : Row :=
  [("id", dget item "id"),
   ("url", dget item "url"),
   ("create_user", dget item "create_user"),
   ("create_ts", dget item "create_ts"),
   ("mod_user", dget item "mod_user"),
   ("mod_ts", dget item "mod_ts"),
   ("facility_id_id", dget item "facility_id.id"),
   ("facility_id_key", dget item "facility_id.key"),
   ("facility_id_url", dget item "facility_id.url"),
   ("dedicated_company_id_id", dget item "dedicated_company_id.id"),
   ("dedicated_company_id_key", dget item "dedicated_company_id.key"),
   ("dedicated_company_id_url", dget item "dedicated_company_id.url"),
   ("area", getTruthy item "area"),
   ("aisle", getTruthy item "aisle"),
   ("bay", getTruthy item "bay"),
   ("level", getTruthy item "level"),
   ("position", getTruthy item "position"),
   ("bin", getTruthy item "bin"),
   ("type_id_id", dget item "type_id.id"),
   ("type_id_key", dget item "type_id.key"),
   ("type_id_url", dget item "type_id.url"),
   ("allow_multi_sku", getNotNone item "allow_multi_sku"),
   ("barcode", getTruthy item "barcode"),
   ("destination_company_id_id",
    if truthy (dget item "destination_company_id") then
      dget item "destination_company_id.id"
    else PyVal.none),
   ("length", dget item "length"),
   ("width", dget item "width"),
   ("height", dget item "height"),
   ("max_units", getTruthy item "max_units"),
   ("max_lpns", getTruthy item "max_lpns"),
   ("to_be_counted_flg", getNotNone item "to_be_counted_flg"),
   ("to_be_counted_ts", getTruthy item "to_be_counted_ts"),
   ("lock_code_id", getTruthy item "lock_code_id"),
   ("lock_for_putaway_flg", getNotNone item "lock_for_putaway_flg"),
   ("pick_seq", getTruthy item "pick_seq"),
   ("last_count_ts", getTruthy item "last_count_ts"),
   ("last_count_user", getTruthy item "last_count_user"),
   ("locn_size_type_id", getTruthy item "locn_size_type_id"),
   ("min_units", getTruthy item "min_units"),
   ("allow_reserve_partial_pick_flg", getNotNone item "allow_reserve_partial_pick_flg"),
   ("alloc_zone", getTruthy item "alloc_zone"),
   ("locn_str", getTruthy item "locn_str"),
   ("putaway_seq", getTruthy item "putaway_seq"),
   ("replenishment_zone_id_id", dget item "replenishment_zone_id.id"),
   ("replenishment_zone_id_key", dget item "replenishment_zone_id.key"),
   ("replenishment_zone_id_url", dget item "replenishment_zone_id.url"),
   ("min_volume", getTruthy item "min_volume"),
   ("max_volume", getTruthy item "max_volume"),
   ("restrict_batch_nbr_flg", getNotNone item "restrict_batch_nbr_flg"),
   ("item_assignment_type_id_id", dget item "item_assignment_type_id.id"),
   ("item_assignment_type_id_key", dget item "item_assignment_type_id.key"),
   ("item_assignment_type_id_url", dget item "item_assignment_type_id.url"),
   ("item_id_id", dget item "item_id.id"),
   ("item_id_key", dget item "item_id.key"),
   ("item_id_url", dget item "item_id.url"),
   ("mhe_system_id", getTruthy item "mhe_system_id"),
   ("pick_zone", getTruthy item "pick_zone"),
   ("divert_lane", getTruthy item "divert_lane"),
   ("task_zone_id", getTruthy item "task_zone_id"),
   ("in_transit_units", getTruthy item "in_transit_units"),
   ("restrict_invn_attr_flg", getNotNone item "restrict_invn_attr_flg"),
   ("assembly_flg", getNotNone item "assembly_flg"),
   ("billing_location_type", getTruthy item "billing_location_type"),
   ("cust_field_1", dget item "cust_field_1"),
   ("cust_field_2", dget item "cust_field_2"),
   ("cust_field_3", dget item "cust_field_3"),
   ("cust_field_4", dget item "cust_field_4"),
   ("cust_field_5", dget item "cust_field_5"),
   ("min_weight", getTruthy item "min_weight"),
   ("max_weight", getTruthy item "max_weight"),
   ("cc_threshold_uom_id_id",
    if truthy (dget item "cc_threshold_uom_id") then
      dget item "cc_threshold_uom_id.id"
    else PyVal.none),
   ("cc_threshold_uom_id_key",
    if truthy (dget item "cc_threshold_uom_id") then
      dget item "cc_threshold_uom_id.key"
    else PyVal.none),
   ("cc_threshold_uom_id_url",
    if truthy (dget item "cc_threshold_uom_id") then
      dget item "cc_threshold_uom_id.url"
    else PyVal.none),
   ("cc_threshold_value", getTruthy item "cc_threshold_value"),
   ("x_coordinate", getTruthy item "x_coordinate"),
   ("y_coordinate", getTruthy item "y_coordinate"),
   ("z_coordinate", getTruthy item "z_coordinate"),
   ("lock_applied_ts", getTruthy item "lock_applied_ts"),
   ("ignore_attr_values_for_restrict_invn_attr",
    getTruthy item "ignore_attr_values_for_restrict_invn_attr"),
   ("ranking", getTruthy item "ranking")]

/-! ### The pipeline drivers -/

/-- `extract_and_upsert_location` (extractors/location.py, lines 138-169),
parameterised by the outcomes of its two `fetch_all_sync` calls (current
month, then previous month).  The internal `raise ValueError` on an empty
primary result is caught by the function's own broad `except`, so an
exception OR an empty list from the primary fetch routes to the fallback
fetch; an exception from the fallback fetch propagates uncaught. -/
def extract_and_upsert_location (primary fallback : Except HttpErr (List Row)) :
    Except HttpErr Nat :=
  let itemsE := match primary with
    | .ok items => if items.isEmpty then fallback else .ok items
    | .error _ => fallback
  match itemsE with
  | .error e => .error e
  | .ok items =>
    if items.isEmpty then .ok 0
    else
      let flattened := items.map _flatten_location_record
      .ok ((batched 500 flattened).foldl (fun t c => t + upsert_location_count c) 0)

/-- `extract_and_upsert_container` (extractors/container.py, lines 114-154):
identical control flow with the container flattener and sink. -/
def extract_and_upsert_container (primary fallback : Except HttpErr (List Row)) :
    Except HttpErr Nat :=
  let itemsE := match primary with
    | .ok items => if items.isEmpty then fallback else .ok items
    | .error _ => fallback
  match itemsE with
  | .error e => .error e
  | .ok items =>
    if items.isEmpty then .ok 0
    else
      let flattened := items.map _flatten_container_record
      .ok ((batched 500 flattened).foldl (fun t c => t + upsert_container_count c) 0)

/-! ### The inventory pipeline (detail enrichment, merge, upsert) -/

/-- `ids = [it.get("id") for it in items if "id" in it]` (inventory.py, 159). -/
def inventory_ids (items : List Row) : List PyVal :=
  (items.filter (fun it => dcontains it "id")).map (fun it => dget it "id")

/-- `detail if isinstance(detail, dict) and detail else summary`
(inventory.py, line 201): a missing, failed, non-dict or empty-dict detail
falls back to the summary record. -/
def merge_detail (summary : Row) (detail : Option PyVal) : Row :=
  match detail with
  | some d =>
    match d with
    | .dict fields => if fields.isEmpty then summary else fields
    | _ => summary
  | Option.none => summary

/-- The details list `extract_and_upsert_inventory` assembles (inventory.py,
lines 161-196): ids are chunked into batches of 50, each batch's fan-out
preserves input order (proved over `FanStep` below), and per-batch outputs are
extended in batch order.  `fetch` gives each id's outcome: `some d` a fetched
detail body, `Option.none` the exception paths that append `None`. -/
def inventory_all_details (fetch : PyVal → Option PyVal) (ids : List PyVal) :
    List (Option PyVal) :=
  ((batched 50 ids).map (fun chunk => chunk.map fetch)).flatten

/-- `merged` (inventory.py, lines 198-201): `zip(items, all_details)` —
truncating at the shorter list, exactly like Python's `zip` — with
detail-over-summary preference per position. -/
def inventory_merged (fetch : PyVal → Option PyVal) (items : List Row) : List Row :=
  List.zipWith merge_detail items (inventory_all_details fetch (inventory_ids items))

/-- `extract_and_upsert_inventory`'s returned total (inventory.py, lines
150-212): zero when the summary fetch found nothing, else the accumulated
`upsert_inventory` row counts over 500-row chunks of the flattened merge. -/
def extract_and_upsert_inventory (fetch : PyVal → Option PyVal) (items : List Row) : Nat :=
  if items.isEmpty then 0
  else
    let flattened := (inventory_merged fetch items).map _flatten_inventory_record
    (batched 500 flattened).foldl (fun t c => t + upsert_inventory_count c) 0

/-! ### The detail fan-out scheduler as a labelled transition system -/

/-- One detail-fetch task's lifecycle in `_fetch_details_for_batch`
(inventory.py, lines 106-136): created but waiting, holding the semaphore, or
finished with its result. -/
inductive Slot where
  | pending
  | running
  | done (v : Option PyVal)

/-- Scheduler state: one slot per input position, plus free semaphore permits. -/
structure FanState where
  slots : List Slot
  sem : Nat

def Slot.isDone : Slot → Bool
  | .done _ => true
  | _ => false

/-- `asyncio.gather` over semaphore-gated tasks, as a transition system: a
pending task may start whenever a permit is free; a running task may finish
at ANY time — completion order is unconstrained — storing `fetch id` (its
detail, or `None` for a swallowed exception) into ITS OWN slot `i` and
releasing the permit. -/
inductive FanStep (fetch : PyVal → Option PyVal) (ids : List PyVal) :
    FanState → FanState → Prop
  | start (s : FanState) (i : Nat) (hi : i < s.slots.length)
      (hp : s.slots.get ⟨i, hi⟩ = .pending) (hs : 0 < s.sem) :
      FanStep fetch ids s ⟨s.slots.set i .running, s.sem - 1⟩
  | finish (s : FanState) (i : Nat) (hi : i < s.slots.length) (hid : i < ids.length)
      (hr : s.slots.get ⟨i, hi⟩ = .running) :
      FanStep fetch ids s ⟨s.slots.set i (.done (fetch (ids.get ⟨i, hid⟩))), s.sem + 1⟩

/-- Reachability under arbitrary scheduler interleaving. -/
def FanReach (fetch : PyVal → Option PyVal) (ids : List PyVal) :
    FanState → FanState → Prop :=
  Relation.ReflTransGen (FanStep fetch ids)

/-- The initial state: every task pending, `concurrency` permits free. -/
def initFan (n concurrency : Nat) : FanState :=
  ⟨List.replicate n .pending, concurrency⟩

/-- All tasks finished — the point where `asyncio.gather` returns. -/
def FanState.allDone (s : FanState) : Bool :=
  s.slots.all Slot.isDone

/-- The list `gather` returns: per-slot results in slot (input) order. -/
def FanState.output (s : FanState) : List (Option PyVal) :=
  s.slots.map (fun sl => match sl with | .done v => v | _ => Option.none)

/-- Scheduler invariant for slot `i`: untouched, in flight, or holding exactly
the fetch outcome of id `i` — never another id's result. -/
def SlotOk (fetch : PyVal → Option PyVal) (ids : List PyVal) (i : Nat) (sl : Slot) : Prop :=
  sl = .pending ∨ sl = .running ∨ ∃ h : i < ids.length, sl = .done (fetch (ids.get ⟨i, h⟩))

/-- Scheduler invariant: one slot per id, each slot in its lawful states. -/
def FanInv (fetch : PyVal → Option PyVal) (ids : List PyVal) (s : FanState) : Prop :=
  s.slots.length = ids.length ∧
  ∀ i (h : i < s.slots.length), SlotOk fetch ids i (s.slots.get ⟨i, h⟩)

theorem get_set_eq_slot (l : List Slot) (i : Nat) (a : Slot)
    (h : i < (l.set i a).length) : (l.set i a).get ⟨i, h⟩ = a := by
  simp [List.get_eq_getElem, List.getElem_set]

theorem get_set_ne_slot (l : List Slot) (i j : Nat) (a : Slot) (hij : i ≠ j)
    (h : j < (l.set i a).length) (h' : j < l.length) :
    (l.set i a).get ⟨j, h⟩ = l.get ⟨j, h'⟩ := by
  simp [List.get_eq_getElem, List.getElem_set, hij]

theorem fanStep_inv {fetch : PyVal → Option PyVal} {ids : List PyVal}
    {s t : FanState} (h : FanStep fetch ids s t) (hs : FanInv fetch ids s) :
    FanInv fetch ids t := by
  cases h with
  | start i hi hp hsem =>
    refine ⟨by simpa using hs.1, ?_⟩
    intro j hj
    have hj' : j < s.slots.length := by simpa using hj
    by_cases hij : i = j
    · subst hij
      rw [get_set_eq_slot]
      exact Or.inr (Or.inl rfl)
    · rw [get_set_ne_slot s.slots i j _ hij _ hj']
      exact hs.2 j hj'
  | finish i hi hid hr =>
    refine ⟨by simpa using hs.1, ?_⟩
    intro j hj
    have hj' : j < s.slots.length := by simpa using hj
    by_cases hij : i = j
    · subst hij
      rw [get_set_eq_slot]
      exact Or.inr (Or.inr ⟨hid, rfl⟩)
    · rw [get_set_ne_slot s.slots i j _ hij _ hj']
      exact hs.2 j hj'

theorem fanReach_inv {fetch : PyVal → Option PyVal} {ids : List PyVal}
    {s t : FanState} (h : FanReach fetch ids s t) (hs : FanInv fetch ids s) :
    FanInv fetch ids t := by
  induction h with
  | refl => exact hs
  | tail _ hstep ih => exact fanStep_inv hstep ih

theorem initFan_inv (fetch : PyVal → Option PyVal) (ids : List PyVal) (K : Nat) :
    FanInv fetch ids (initFan ids.length K) := by
  constructor
  · simp [initFan]
  · intro i h
    simp only [initFan] at h ⊢
    simp only [List.get_eq_getElem, List.getElem_replicate]
    exact Or.inl rfl

/-- Order preservation of the fan-out: in EVERY complete run of the scheduler
(any interleaving, any concurrency limit), the gathered output is exactly the
input ids mapped through the fetch outcome, position by position. -/
theorem fan_output_eq {fetch : PyVal → Option PyVal} {ids : List PyVal} {K : Nat}
    {s : FanState} (hreach : FanReach fetch ids (initFan ids.length K) s)
    (hdone : s.allDone = true) : s.output = ids.map fetch := by
  have hinv := fanReach_inv hreach (initFan_inv fetch ids K)
  have hlen : s.slots.length = ids.length := hinv.1
  apply List.ext_getElem
  · simp [FanState.output, hlen]
  · intro i h1 h2
    have hi : i < s.slots.length := by simpa [FanState.output] using h1
    have hok := hinv.2 i hi
    have hd : (s.slots.get ⟨i, hi⟩).isDone = true :=
      List.all_eq_true.mp hdone (s.slots.get ⟨i, hi⟩) (List.get_mem _ _ _)
    rcases hok with hp | hr | ⟨hlt, heq⟩
    · rw [hp] at hd; cases hd
    · rw [hr] at hd; cases hd
    · have heq' : s.slots[i] = Slot.done (fetch ids[i]) := by
        simpa [List.get_eq_getElem] using heq
      simp only [FanState.output, List.getElem_map, heq']

/-! ### Supporting lemmas for the claim theorems -/

theorem flatten_filter_nonempty (L : List (List α)) :
    (L.filter (fun p => !p.isEmpty)).flatten = L.flatten := by
  induction L with
  | nil => rfl
  | cons p ps ih =>
    by_cases hp : p.isEmpty
    · have hnil : p = [] := List.isEmpty_iff.mp hp
      subst hnil
      simpa using ih
    · simp [List.filter_cons, hp, ih]

theorem resultsVal_mkPage (p : List PyVal) : resultsVal (mkPage p) = some (.list p) := by
  by_cases hp : p.isEmpty
  · have hnil : p = [] := List.isEmpty_iff.mp hp
    subst hnil
    rfl
  · simp [resultsVal, mkPage, dgetD, dfind, List.find?, truthy, hp]

/-- Evaluation of the pagination loop over a trace of successful pages, while
some page stops it: it consumes exactly the `fetchedPrefix`, accumulating the
records in fetch order, one request per consumed page. -/
theorem fetch_all_sync_pages (page_size : Nat) (pages : List (List PyVal))
    (acc : List PyVal) (reqs : Nat)
    (hstop : ∃ p ∈ pages, p.length < page_size ∨ p = []) :
    fetch_all_sync page_size (pages.map (fun p => Except.ok (mkPage p))) acc reqs =
      some (Except.ok (acc ++ (fetchedPrefix page_size pages).flatten),
            reqs + (fetchedPrefix page_size pages).length) := by
  induction pages generalizing acc reqs with
  | nil => simp at hstop
  | cons p ps ih =>
    simp only [List.map_cons, fetch_all_sync, resultsVal_mkPage]
    by_cases hp : p.isEmpty
    · have hnil : p = [] := List.isEmpty_iff.mp hp
      subst hnil
      simp [truthy, fetchedPrefix]
    · have hne : truthy (.list p) = true := by simp [truthy, hp]
      rw [hne]
      simp only [Bool.true_eq_false, if_false]
      by_cases hshort : p.length < page_size
      · simp [hshort, fetchedPrefix, hp, List.isEmpty_iff]
      · have hstop' : ∃ q ∈ ps, q.length < page_size ∨ q = [] := by
          rcases hstop with ⟨q, hq, hqs⟩
          rcases List.mem_cons.mp hq with rfl | hq'
          · rcases hqs with h | h
            · exact absurd h hshort
            · exact absurd h (by simpa [List.isEmpty_iff] using hp)
          · exact ⟨q, hq', hqs⟩
        rw [if_neg hshort, ih (acc ++ p) (reqs + 1) hstop']
        have hpre : fetchedPrefix page_size (p :: ps) = p :: fetchedPrefix page_size ps := by
          simp [fetchedPrefix, hshort, List.isEmpty_iff,
            (by simpa [List.isEmpty_iff] using hp : p ≠ [])]
        rw [hpre]
        simp [List.append_assoc, Nat.add_assoc, Nat.add_comm 1]

theorem upsert_location_count_eq (rows : List Row) :
    upsert_location_count rows = rows.length := by
  unfold upsert_location_count
  split
  · rename_i h
    simp [List.isEmpty_iff.mp h]
  · rfl

theorem upsert_container_count_eq (rows : List Row) :
    upsert_container_count rows = rows.length := by
  unfold upsert_container_count
  split
  · rename_i h
    simp [List.isEmpty_iff.mp h]
  · rfl

theorem upsert_inventory_count_eq (rows : List Row) :
    upsert_inventory_count rows = rows.length := by
  unfold upsert_inventory_count
  split
  · rename_i h
    simp [List.isEmpty_iff.mp h]
  · rfl

/-- The accumulated total over 500-row chunks equals the number of rows,
for any sink call that reports the size of the batch it was given. -/
theorem foldl_count_total (cnt : List Row → Nat) (hcnt : ∀ c, cnt c = c.length)
    (l : List Row) :
    (batched 500 l).foldl (fun t c => t + cnt c) 0 = l.length := by
  have hfn : (fun (t : Nat) (c : List Row) => t + cnt c) = fun t c => t + c.length := by
    funext t c
    rw [hcnt]
  rw [hfn]
  simpa using batched_foldl_length 500 (by norm_num) l 0

/-- The chunked detail fan-out (batches of 50, outputs extended in batch
order) yields exactly the per-id outcomes in input order. -/
theorem inventory_all_details_eq (fetch : PyVal → Option PyVal) (ids : List PyVal) :
    inventory_all_details fetch ids = ids.map fetch := by
  unfold inventory_all_details
  rw [← List.map_flatten, batched_flatten 50 (by norm_num)]

/-- When every summary record carries an `"id"`, the ids list is the summary
list's ids, position by position. -/
theorem inventory_ids_of_all (items : List Row)
    (h : ∀ it ∈ items, dcontains it "id" = true) :
    inventory_ids items = items.map (fun it => dget it "id") := by
  unfold inventory_ids
  rw [List.filter_eq_self.mpr h]

/-- The `k`-th element of a filtered list comes from position `j ≥ k` of the
original list. -/
theorem filter_get_index (p : α → Bool) (l : List α) (k : Nat)
    (hk : k < (l.filter p).length) :
    ∃ j, k ≤ j ∧ ∃ hj : j < l.length, p (l.get ⟨j, hj⟩) = true ∧
      (l.filter p).get ⟨k, hk⟩ = l.get ⟨j, hj⟩ := by
  induction l generalizing k with
  | nil => simp at hk
  | cons a l ih =>
    by_cases hpa : p a
    · cases k with
      | zero =>
        refine ⟨0, Nat.le_refl 0, Nat.succ_pos _, hpa, ?_⟩
        simp [List.filter_cons, hpa]
      | succ k =>
        have hk' : k < (l.filter p).length := by
          simpa [List.filter_cons, hpa] using hk
        obtain ⟨j, hkj, hj, hpj, heq⟩ := ih k hk'
        refine ⟨j + 1, by omega, by simpa using Nat.succ_lt_succ hj, ?_, ?_⟩
        · simpa using hpj
        · simpa [List.filter_cons, hpa] using heq
    · have hk' : k < (l.filter p).length := by
        simpa [List.filter_cons, hpa] using hk
      obtain ⟨j, hkj, hj, hpj, heq⟩ := ih k hk'
      refine ⟨j + 1, by omega, by simpa using Nat.succ_lt_succ hj, ?_, ?_⟩
      · simpa using hpj
      · simpa [List.filter_cons, hpa] using heq

/-- Under the all-ids precondition, the zip-merge pairs each summary with the
detail fetched for its own id. -/
theorem merged_of_all_ids (fetch : PyVal → Option PyVal) (items : List Row)
    (h : ∀ it ∈ items, dcontains it "id" = true) :
    inventory_merged fetch items =
      items.map (fun it => merge_detail it (fetch (dget it "id"))) := by
  unfold inventory_merged
  rw [inventory_all_details_eq, inventory_ids_of_all items h, List.map_map,
    List.zipWith_map_right, List.zipWith_same]
  rfl

/-- The merged list is as long as the shorter of the summary and ids lists. -/
theorem inventory_merged_length (fetch : PyVal → Option PyVal) (items : List Row) :
    (inventory_merged fetch items).length =
      min items.length (inventory_ids items).length := by
  unfold inventory_merged
  rw [List.length_zipWith, inventory_all_details_eq, List.length_map]

/-! ### Claim theorems -/

/-- The C1 evidence record: a location whose `type_id` field is a nested
reference mapping with `id`, `key` and `url`. -/
def locRecC1 : Row :=
  [("id", PyVal.int 1),
   ("type_id", PyVal.dict
     [("id", PyVal.int 5), ("key", PyVal.str "PAL"), ("url", PyVal.str "http://x")])]

/-- C1: the claim says the Flattener's column-naming convention and the Sink's
lookup convention agree — the values persisted for `type_id_id`, `type_id_key`,
`type_id_url` equal the nested mapping's `id`, `key`, `url`.  On the code they
do NOT: `_flatten_location_record` emits underscore-suffixed keys while
`upsert_location` looks the values up under dotted keys (`"type_id.id"` etc.),
so the Sink binds null for all three columns even though the flattened row
carries `5` / `"PAL"` / `"http://x"`.  This is the convention-mixing bug the
spec itself calls out; the claim is the intent and the code the slip. -/
theorem C1_flattener_sink_convention_mismatch :
    dget (_flatten_location_record locRecC1) "type_id_id" = PyVal.int 5 ∧
    dget (_flatten_location_record locRecC1) "type_id_key" = PyVal.str "PAL" ∧
    dget (_flatten_location_record locRecC1) "type_id_url" = PyVal.str "http://x" ∧
    dget (upsert_location_params (_flatten_location_record locRecC1)) "type_id_id" = PyVal.none ∧
    dget (upsert_location_params (_flatten_location_record locRecC1)) "type_id_key" = PyVal.none ∧
    dget (upsert_location_params (_flatten_location_record locRecC1)) "type_id_url" = PyVal.none ∧
    PyVal.int 5 ≠ PyVal.none :=
  ⟨rfl, rfl, rfl, rfl, rfl, rfl, fun h => PyVal.noConfusion h⟩

/-- C2 counterexample: with an empty primary window and the fallback fetch
failing with HTTP 404, `extract_and_upsert_location` propagates the exception
(only the primary fetch sits inside the `try`), instead of reporting zero
rows as the claim requires. -/
theorem C2_fallback_404_counterexample :
    extract_and_upsert_location (Except.ok []) (Except.error (HttpErr.status 404)) =
      Except.error (HttpErr.status 404) ∧
    extract_and_upsert_location (Except.ok []) (Except.error (HttpErr.status 404)) ≠
      Except.ok 0 :=
  ⟨rfl, fun h => Except.noConfusion h⟩

/-- C2 (amended): when the primary window fetch returns zero records or
raises, and the FALLBACK window fetch returns zero records, the location
extractor returns 0 processed rows and does not raise; a 404 on the fallback
fetch, however, propagates (see the counterexample). -/
theorem C2_empty_fallback_reports_zero (primary : Except HttpErr (List Row))
    (hp : primary = Except.ok [] ∨ ∃ e, primary = Except.error e) :
    extract_and_upsert_location primary (Except.ok []) = Except.ok 0 := by
  rcases hp with h | ⟨e, h⟩ <;> subst h <;> rfl

theorem C2_empty_fallback_reports_zero_witness :
    ((Except.ok [] : Except HttpErr (List Row)) = Except.ok [] ∨
      ∃ e, (Except.ok [] : Except HttpErr (List Row)) = Except.error e) ∧
    extract_and_upsert_location (Except.ok []) (Except.ok []) = Except.ok 0 :=
  ⟨Or.inl rfl, C2_empty_fallback_reports_zero (Except.ok []) (Or.inl rfl)⟩

/-- C3 counterexample: the first page request fails with a transient HTTP 500
while the next response in the trace would be a successful short page.  The
claim requires the client to retry and succeed (2 attempts, result
`[PyVal.int 7]`); the code instead stops after exactly ONE request with the
error — no retry exists anywhere in the client. -/
theorem C3_transient_error_not_retried_counterexample :
    fetch_all_sync 200
      [Except.error (HttpErr.status 500), Except.ok (mkPage [PyVal.int 7])] [] 0 =
      some (Except.error (HttpErr.status 500), 1) ∧
    fetch_all_sync 200
      [Except.error (HttpErr.status 500), Except.ok (mkPage [PyVal.int 7])] [] 0 ≠
      some (Except.ok [PyVal.int 7], 2) := by
  refine ⟨rfl, fun h => ?_⟩
  rw [show fetch_all_sync 200
      [Except.error (HttpErr.status 500), Except.ok (mkPage [PyVal.int 7])] [] 0 =
      some (Except.error (HttpErr.status 500), 1) from rfl] at h
  simp at h

/-- C3 (amended): the client performs NO retries at all.  Whatever error the
next request produces — transient (5xx, timeout) or permanent (404) —
`fetch_all_sync` fails right there after exactly one further request, leaving
the rest of the trace unconsumed, and `fetch_one_detail` propagates its
request's error unchanged.  (The configured `default_retries` is stored on
the client but never used.) -/
theorem C3_single_attempt_propagation (page_size : Nat) (e : HttpErr)
    (rest : List HttpResp) (items : List PyVal) (reqs : Nat) :
    fetch_all_sync page_size (Except.error e :: rest) items reqs =
      some (Except.error e, reqs + 1) ∧
    fetch_one_detail (Except.error e) = some (Except.error e) :=
  ⟨rfl, rfl⟩

/-- C4: for any sequence of successful pages that eventually contains a page
shorter than `page_size` or an empty page, `fetch_all_sync` terminates
(settles within the trace), returning exactly the concatenation, in fetch
order, of the pages it consumed — equivalently, of its non-empty consumed
pages (each record once, none duplicated or dropped) — with one request per
consumed page. -/
theorem C4_pagination_terminates_exact (page_size : Nat) (pages : List (List PyVal))
    (hstop : ∃ p ∈ pages, p.length < page_size ∨ p = []) :
    fetch_all_sync page_size (pages.map (fun p => Except.ok (mkPage p))) [] 0 =
      some (Except.ok (fetchedPrefix page_size pages).flatten,
            (fetchedPrefix page_size pages).length) ∧
    ((fetchedPrefix page_size pages).filter (fun p => !p.isEmpty)).flatten =
      (fetchedPrefix page_size pages).flatten := by
  refine ⟨?_, flatten_filter_nonempty _⟩
  simpa using fetch_all_sync_pages page_size pages [] 0 hstop

theorem C4_pagination_terminates_exact_witness :
    (∃ p ∈ [[PyVal.int 1, PyVal.int 2], [PyVal.int 3]], p.length < 2 ∨ p = []) ∧
    fetch_all_sync 2
      [Except.ok (mkPage [PyVal.int 1, PyVal.int 2]), Except.ok (mkPage [PyVal.int 3])] [] 0 =
      some (Except.ok [PyVal.int 1, PyVal.int 2, PyVal.int 3], 2) := by
  have hstop : ∃ p ∈ [[PyVal.int 1, PyVal.int 2], [PyVal.int 3]], p.length < 2 ∨ p = [] :=
    ⟨[PyVal.int 3], List.mem_cons_of_mem _ (List.mem_cons_self _ _), Or.inl (by norm_num)⟩
  exact ⟨hstop,
    (C4_pagination_terminates_exact 2 [[PyVal.int 1, PyVal.int 2], [PyVal.int 3]] hstop).1⟩

/-- C5 counterexample: two location records of the same entity type (one with
a `barcode` field, one without) flatten to rows with DIFFERENT key sets: the
flattener emits only fields present in the source and does not null-fill the
missing ones.  The claimed per-row schema stability fails at the Flattener. -/
theorem C5_flattened_key_sets_differ_counterexample :
    (_flatten_location_record [("id", PyVal.int 1)]).map Prod.fst = ["id"] ∧
    (_flatten_location_record [("id", PyVal.int 2), ("barcode", PyVal.str "B")]).map Prod.fst =
      ["id", "barcode"] ∧
    (["id"] : List String) ≠ ["id", "barcode"] :=
  ⟨rfl, rfl, by decide⟩

/-- C5 (amended): the schema-stable key set is produced at the SINK, not by
the Flattener: `upsert_location`'s parameter row carries one fixed column
list for every record, and a record with every field missing binds null in
every column (missing source fields become null at batch submission). -/
theorem C5_sink_schema_stability (item other : Row) :
    (upsert_location_params item).map Prod.fst =
      (upsert_location_params other).map Prod.fst ∧
    (upsert_location_params []).all (fun p => isPyNone p.snd) = true :=
  ⟨rfl, rfl⟩

/-- C6: when the primary window yields zero records (or raises) and the
fallback window yields the non-empty list `fb`, both the location and the
container extractor flatten all `fb` records, submit them in 500-row chunks
whose concatenation is exactly the flattened list, and return `fb.length`
without raising. -/
theorem C6_fallback_window_returns_N (primary : Except HttpErr (List Row))
    (fb : List Row) (hp : primary = Except.ok [] ∨ ∃ e, primary = Except.error e)
    (hfb : fb ≠ []) :
    extract_and_upsert_location primary (Except.ok fb) = Except.ok fb.length ∧
    extract_and_upsert_container primary (Except.ok fb) = Except.ok fb.length ∧
    (batched 500 (fb.map _flatten_location_record)).flatten =
      fb.map _flatten_location_record := by
  have hne : fb.isEmpty = false := by simpa [List.isEmpty_iff] using hfb
  have hloc : ∀ l : List Row,
      (batched 500 l).foldl (fun t c => t + upsert_location_count c) 0 = l.length :=
    foldl_count_total _ upsert_location_count_eq
  have hcon : ∀ l : List Row,
      (batched 500 l).foldl (fun t c => t + upsert_container_count c) 0 = l.length :=
    foldl_count_total _ upsert_container_count_eq
  refine ⟨?_, ?_, batched_flatten 500 (by norm_num) _⟩
  · rcases hp with h | ⟨e, h⟩ <;> subst h <;>
      simp [extract_and_upsert_location, hne, hloc, List.length_map]
  · rcases hp with h | ⟨e, h⟩ <;> subst h <;>
      simp [extract_and_upsert_container, hne, hcon, List.length_map]

theorem C6_fallback_window_returns_N_witness :
    ((Except.ok [] : Except HttpErr (List Row)) = Except.ok [] ∨
      ∃ e, (Except.ok [] : Except HttpErr (List Row)) = Except.error e) ∧
    ([[("id", PyVal.int 9)]] : List Row) ≠ [] ∧
    extract_and_upsert_location (Except.ok []) (Except.ok [[("id", PyVal.int 9)]]) =
      Except.ok 1 := by
  refine ⟨Or.inl rfl, by simp, ?_⟩
  exact (C6_fallback_window_returns_N (Except.ok []) [[("id", PyVal.int 9)]]
    (Or.inl rfl) (by simp)).1

/-- C7: for every input id list given to the detail fan-out with any
concurrency limit `K`, every complete scheduler run — regardless of the order
in which individual fetches complete — produces the output list whose entry
`k` is the fetch outcome for id `k` (null for a failed fetch, never an
aborted batch); and downstream, when every summary carries an id (the lists
are then equally long), the merge falls back per position to the summary
whose own id the (possibly null) detail was fetched for. -/
theorem C7_fanout_preserves_order_and_merge (fetch : PyVal → Option PyVal)
    (items : List Row) (K : Nat) (s : FanState)
    (hids : ∀ it ∈ items, dcontains it "id" = true)
    (hreach : FanReach fetch (inventory_ids items)
      (initFan (inventory_ids items).length K) s)
    (hdone : s.allDone = true) :
    s.output = (inventory_ids items).map fetch ∧
    (inventory_ids items).length = items.length ∧
    inventory_merged fetch items =
      items.map (fun it => merge_detail it (fetch (dget it "id"))) := by
  refine ⟨fan_output_eq hreach hdone, ?_, merged_of_all_ids fetch items hids⟩
  rw [inventory_ids_of_all items hids, List.length_map]

theorem C7_fanout_preserves_order_and_merge_witness :
    (∀ it ∈ ([[("id", PyVal.int 1)], [("id", PyVal.int 2)]] : List Row),
      dcontains it "id" = true) ∧
    FanState.allDone ⟨[Slot.done Option.none, Slot.done Option.none], 1⟩ = true ∧
    FanState.output ⟨[Slot.done Option.none, Slot.done Option.none], 1⟩ =
      [Option.none, Option.none] ∧
    inventory_merged (fun _ => Option.none)
      [[("id", PyVal.int 1)], [("id", PyVal.int 2)]] =
      [[("id", PyVal.int 1)], [("id", PyVal.int 2)]] := by
  have hids : ∀ it ∈ ([[("id", PyVal.int 1)], [("id", PyVal.int 2)]] : List Row),
      dcontains it "id" = true := by
    intro it hit
    cases hit with
    | head => rfl
    | tail _ h2 =>
      cases h2 with
      | head => rfl
      | tail _ h3 => cases h3
  have hreach : FanReach (fun _ => Option.none)
      (inventory_ids [[("id", PyVal.int 1)], [("id", PyVal.int 2)]])
      (initFan (inventory_ids [[("id", PyVal.int 1)], [("id", PyVal.int 2)]]).length 1)
      ⟨[Slot.done Option.none, Slot.done Option.none], 1⟩ := by
    have step1 : FanStep (fun _ => Option.none)
        (inventory_ids [[("id", PyVal.int 1)], [("id", PyVal.int 2)]])
        (initFan (inventory_ids [[("id", PyVal.int 1)], [("id", PyVal.int 2)]]).length 1)
        ⟨[Slot.running, Slot.pending], 0⟩ :=
      FanStep.start _ 0 (by decide) rfl (by decide)
    have step2 : FanStep (fun _ => Option.none)
        (inventory_ids [[("id", PyVal.int 1)], [("id", PyVal.int 2)]])
        ⟨[Slot.running, Slot.pending], 0⟩
        ⟨[Slot.done Option.none, Slot.pending], 1⟩ :=
      FanStep.finish _ 0 (by decide) (by decide) rfl
    have step3 : FanStep (fun _ => Option.none)
        (inventory_ids [[("id", PyVal.int 1)], [("id", PyVal.int 2)]])
        ⟨[Slot.done Option.none, Slot.pending], 1⟩
        ⟨[Slot.done Option.none, Slot.running], 0⟩ :=
      FanStep.start _ 1 (by decide) rfl (by decide)
    have step4 : FanStep (fun _ => Option.none)
        (inventory_ids [[("id", PyVal.int 1)], [("id", PyVal.int 2)]])
        ⟨[Slot.done Option.none, Slot.running], 0⟩
        ⟨[Slot.done Option.none, Slot.done Option.none], 1⟩ :=
      FanStep.finish _ 1 (by decide) (by decide) rfl
    exact Relation.ReflTransGen.head step1
      (Relation.ReflTransGen.head step2
        (Relation.ReflTransGen.head step3
          (Relation.ReflTransGen.single step4)))
  have h := C7_fanout_preserves_order_and_merge (fun _ => Option.none)
    [[("id", PyVal.int 1)], [("id", PyVal.int 2)]] 1
    ⟨[Slot.done Option.none, Slot.done Option.none], 1⟩ hids hreach rfl
  exact ⟨hids, rfl, h.1, h.2.2⟩

/-- C8 counterexample: `_safe_bool("false")` returns `False` — which is
neither null (the claim's default for non-token values) nor the generic
truthiness fallback the claim allows (`bool("false")` is `True`, since
`"false"` is a non-empty string).  A non-token string therefore falsifies
both outcomes the claim permits. -/
theorem C8_nontoken_string_counterexample :
    safe_bool (PyVal.str "false") = PyVal.bool false ∧
    PyVal.bool false ≠ PyVal.none ∧
    truthy (PyVal.str "false") = true ∧
    PyVal.bool false ≠ PyVal.bool (truthy (PyVal.str "false")) :=
  ⟨rfl, fun h => PyVal.noConfusion h, rfl,
   fun h => Bool.noConfusion (PyVal.bool.inj h)⟩

/-- C8 (amended): `_safe_bool`'s actual coercion table — native booleans pass
through; null coerces to null; a string coerces to TRUE exactly when its
lower-case form is one of `{"true","t","1","yes","y"}` and to FALSE otherwise
(never to null, never by truthiness); every other value receives generic
truthiness coercion. -/
theorem C8_bool_coercion_amended (b : Bool) (s : String) (v : PyVal) :
    safe_bool (PyVal.bool b) = PyVal.bool b ∧
    safe_bool PyVal.none = PyVal.none ∧
    (pyLower s ∈ ["true", "t", "1", "yes", "y"] →
      safe_bool (PyVal.str s) = PyVal.bool true) ∧
    (pyLower s ∉ ["true", "t", "1", "yes", "y"] →
      safe_bool (PyVal.str s) = PyVal.bool false) ∧
    (isPyNone v = false → (∀ b', v ≠ PyVal.bool b') → (∀ s', v ≠ PyVal.str s') →
      safe_bool v = PyVal.bool (truthy v)) := by
  refine ⟨rfl, rfl, ?_, ?_, ?_⟩
  · intro h
    have h' : pyLower s = "true" ∨ pyLower s = "t" ∨ pyLower s = "1" ∨
        pyLower s = "yes" ∨ pyLower s = "y" := by simpa using h
    simp [safe_bool, h']
  · intro h
    have h' : ¬(pyLower s = "true" ∨ pyLower s = "t" ∨ pyLower s = "1" ∨
        pyLower s = "yes" ∨ pyLower s = "y") := by simpa using h
    simp [safe_bool, h']
  · intro h1 h2 h3
    cases v with
    | none => simp [isPyNone] at h1
    | bool b' => exact absurd rfl (h2 b')
    | str s' => exact absurd rfl (h3 s')
    | int n => rfl
    | float q => rfl
    | dict d => rfl
    | list l => rfl
    | dt t => rfl
    | date d => rfl

theorem C8_bool_coercion_amended_witness :
    pyLower "YES" ∈ ["true", "t", "1", "yes", "y"] ∧
    safe_bool (PyVal.str "YES") = PyVal.bool true ∧
    isPyNone (PyVal.int 7) = false ∧
    safe_bool (PyVal.int 7) = PyVal.bool (truthy (PyVal.int 7)) := by
  refine ⟨by decide, ?_, rfl, ?_⟩
  · exact (C8_bool_coercion_amended true "YES" (PyVal.int 7)).2.2.1 (by decide)
  · exact (C8_bool_coercion_amended true "YES" (PyVal.int 7)).2.2.2.2 rfl
      (fun b' h => PyVal.noConfusion h) (fun s' h => PyVal.noConfusion h)

/-- C9: for every list of flattened rows with batch size 500, the submitted
chunks concatenate, in submission order, to exactly the input list; every
chunk is non-empty of length at most 500; every chunk except possibly the
last has length exactly 500; and the driver's accumulated total over
`upsert_inventory`'s per-call row counts equals the number of flattened
rows. -/
theorem C9_chunked_upsert_exact (rows : List Row) :
    (batched 500 rows).flatten = rows ∧
    (∀ c ∈ batched 500 rows, c ≠ [] ∧ c.length ≤ 500) ∧
    (∀ c ∈ (batched 500 rows).dropLast, c.length = 500) ∧
    (batched 500 rows).foldl (fun t c => t + upsert_inventory_count c) 0 = rows.length :=
  ⟨batched_flatten 500 (by norm_num) rows,
   fun c hc => batched_mem_length 500 rows c hc,
   fun c hc => batched_dropLast_length 500 rows c hc,
   foldl_count_total upsert_inventory_count upsert_inventory_count_eq rows⟩

theorem C9_chunked_upsert_exact_witness :
    (batched 500 ([[("id", PyVal.int 1)]] : List Row)).flatten = [[("id", PyVal.int 1)]] ∧
    ([[("id", PyVal.int 1)]] : List Row) ∈ batched 500 ([[("id", PyVal.int 1)]] : List Row) ∧
    (([[("id", PyVal.int 1)]] : List Row) ≠ [] ∧
      ([[("id", PyVal.int 1)]] : List Row).length ≤ 500) ∧
    (batched 500 ([[("id", PyVal.int 1)]] : List Row)).foldl
      (fun t c => t + upsert_inventory_count c) 0 = 1 := by
  have hb : batched 500 ([[("id", PyVal.int 1)]] : List Row) = [[[("id", PyVal.int 1)]]] := by
    rw [batched_cons 500 _ (by norm_num) (by simp)]
    simp [batched_nil]
  have hmem : ([[("id", PyVal.int 1)]] : List Row) ∈
      batched 500 ([[("id", PyVal.int 1)]] : List Row) := by
    rw [hb]
    exact List.mem_singleton.mpr rfl
  have h := C9_chunked_upsert_exact [[("id", PyVal.int 1)]]
  exact ⟨h.1, hmem, h.2.1 _ hmem, h.2.2.2⟩

/-- The C10 evidence summaries: the record at position 1 lacks an `"id"` key. -/
def itemsC10 : List Row :=
  [[("id", PyVal.int 1)], [("x", PyVal.int 0)], [("id", PyVal.int 3)],
   [("id", PyVal.int 4)]]

/-- The C10 detail oracle: tags each detail with the id it was fetched for. -/
def fetchTag : PyVal → Option PyVal :=
  fun v => some (PyVal.dict [("fetched_for", v)])

/-- C10 counterexample to the claimed shift DIRECTION: with the idless record
at position 1, only 3 of the 4 summaries survive (the trailing one is
silently dropped), and the summary at position 2 — a summary AFTER the idless
record — is merged with the detail fetched for id 4, which is the id of the
LATER record at position 3; the only earlier record's id is 1 and its detail
went to position 0.  Subsequent summaries are thus paired with details of
LATER records' ids, not "details of earlier ids" as the claim words it. -/
theorem C10_shift_direction_counterexample :
    inventory_merged fetchTag itemsC10 =
      [[("fetched_for", PyVal.int 1)], [("fetched_for", PyVal.int 3)],
       [("fetched_for", PyVal.int 4)]] ∧
    (inventory_merged fetchTag itemsC10).length = 3 ∧
    itemsC10.length = 4 ∧
    dget (itemsC10.get ⟨3, by decide⟩) "id" = PyVal.int 4 ∧
    dcontains (itemsC10.get ⟨1, by decide⟩) "id" = false ∧
    dget (itemsC10.get ⟨0, by decide⟩) "id" = PyVal.int 1 ∧
    PyVal.int 4 ≠ PyVal.int 1 := by
  have hm : inventory_merged fetchTag itemsC10 =
      List.zipWith merge_detail itemsC10 ((inventory_ids itemsC10).map fetchTag) := by
    unfold inventory_merged
    rw [inventory_all_details_eq]
  refine ⟨?_, ?_, rfl, rfl, rfl, rfl,
    fun h => absurd (PyVal.int.inj h) (by decide)⟩
  · rw [hm]; rfl
  · rw [hm]; rfl

/-- C10 (amended): the summary-to-detail merge is position-aligned only under
the precondition that every fetched summary record contains an `"id"` key:
the ids list skips records without `"id"` and the merged list zips the FULL
summary list against the details list, so
(a) with all ids present, each summary merges with the detail fetched for its
own id; (b) in general, position `k` pairs summary `k` with the detail of
`ids[k]`, and `ids[k]` is the id of a record at position `j ≥ k` — a
later-or-equal record, not an earlier one; (c) when some summary lacks
`"id"`, the merged list is strictly shorter than the summary list: the
trailing summaries are silently dropped from the persisted output. -/
theorem C10_zip_alignment_amended (fetch : PyVal → Option PyVal) (items : List Row) :
    ((∀ it ∈ items, dcontains it "id" = true) →
      inventory_merged fetch items =
        items.map (fun it => merge_detail it (fetch (dget it "id")))) ∧
    (inventory_merged fetch items).length =
      min items.length (inventory_ids items).length ∧
    (∀ k (hk1 : k < items.length) (hk2 : k < (inventory_ids items).length)
        (hk : k < (inventory_merged fetch items).length),
      (inventory_merged fetch items).get ⟨k, hk⟩ =
        merge_detail (items.get ⟨k, hk1⟩) (fetch ((inventory_ids items).get ⟨k, hk2⟩))) ∧
    (∀ k (hk : k < (inventory_ids items).length), ∃ j, k ≤ j ∧ ∃ hj : j < items.length,
      dcontains (items.get ⟨j, hj⟩) "id" = true ∧
      (inventory_ids items).get ⟨k, hk⟩ = dget (items.get ⟨j, hj⟩) "id") ∧
    ((∃ it ∈ items, dcontains it "id" = false) →
      (inventory_merged fetch items).length < items.length) := by
  refine ⟨merged_of_all_ids fetch items, inventory_merged_length fetch items, ?_, ?_, ?_⟩
  · intro k hk1 hk2 hk
    simp only [inventory_merged, List.get_eq_getElem, List.getElem_zipWith]
    congr 1
    simp [inventory_all_details_eq]
  · intro k hk
    have hk' : k < (items.filter (fun it => dcontains it "id")).length := by
      simpa [inventory_ids] using hk
    obtain ⟨j, hkj, hj, hpj, heq⟩ :=
      filter_get_index (fun it => dcontains it "id") items k hk'
    refine ⟨j, hkj, hj, hpj, ?_⟩
    simp only [inventory_ids, List.get_eq_getElem, List.getElem_map]
    rw [List.get_eq_getElem] at heq
    rw [show (items.filter (fun it => dcontains it "id"))[k] = items[j] from heq]
  · intro hex
    rw [inventory_merged_length fetch items]
    have hlt : (inventory_ids items).length < items.length := by
      have : (items.filter (fun it => dcontains it "id")).length < items.length := by
        rw [List.length_filter_lt_length_iff_exists]
        rcases hex with ⟨it, hit, hfalse⟩
        exact ⟨it, hit, by simp [hfalse]⟩
      simpa [inventory_ids] using this
    omega

theorem C10_zip_alignment_amended_witness :
    (∀ it ∈ ([[("id", PyVal.int 8)]] : List Row), dcontains it "id" = true) ∧
    inventory_merged fetchTag [[("id", PyVal.int 8)]] =
      [[("fetched_for", PyVal.int 8)]] ∧
    (∃ it ∈ itemsC10, dcontains it "id" = false) ∧
    (inventory_merged fetchTag itemsC10).length < itemsC10.length := by
  have hids : ∀ it ∈ ([[("id", PyVal.int 8)]] : List Row), dcontains it "id" = true := by
    intro it hit
    cases hit with
    | head => rfl
    | tail _ h => cases h
  have hex : ∃ it ∈ itemsC10, dcontains it "id" = false :=
    ⟨[("x", PyVal.int 0)], by simp [itemsC10], rfl⟩
  exact ⟨hids, (C10_zip_alignment_amended fetchTag [[("id", PyVal.int 8)]]).1 hids,
    hex, (C10_zip_alignment_amended fetchTag itemsC10).2.2.2.2 hex⟩
